import Mathlib

/-!
Verification of `fontTools.misc.bezierTools`: a shallow embedding of the
quadratic/cubic Bézier curve utilities (bounds, splitting, polynomial root
solvers) over the real numbers, with theorems settling the specification's
claims about them.

Points are pairs of reals; `Numeric` array arithmetic (component-wise add,
subtract, scalar multiply, boolean axis indexing) is modelled by explicit
component-wise operations.  Floating-point doubles are modelled as exact
reals, matching the specification's "exactly in real arithmetic" reading.
-/

set_option maxHeartbeats 1000000

noncomputable section

open Real

/-- A 2D point: a pair of real coordinates (x, y). -/
abbrev Pt : Type := ℝ × ℝ

/-- Scalar multiplication of a point, component-wise (`p * s` on Numeric arrays). -/
def pscale (s : ℝ) (p : Pt) : Pt := (s * p.1, s * p.2)

/-- Component-wise point addition. -/
def padd (p q : Pt) : Pt := (p.1 + q.1, p.2 + q.2)

/-- Component-wise point subtraction. -/
def psub (p q : Pt) : Pt := (p.1 - q.1, p.2 - q.2)

/-- Axis selection `p[isHorizontal]`: `False` (0) selects x, `True` (1) selects y. -/
def coord (p : Pt) (isHorizontal : Bool) : ℝ := if isHorizontal then p.2 else p.1

/-- `solveQuadratic(a, b, c)` from the source: roots of a*x^2 + b*x + c = 0. -/
def solveQuadratic (a b c : ℝ) : List ℝ :=
  if a = 0 then
    if b = 0 then [] else [-c / b]
  else
    if 0 ≤ b * b - 4 * a * c then
      [(-b + Real.sqrt (b * b - 4 * a * c)) / 2 / a,
       (-b - Real.sqrt (b * b - 4 * a * c)) / 2 / a]
    else []

/-- `Q` of the normalized cubic in `solveCubic`. -/
def cubicQ (a1 a2 : ℝ) : ℝ := (a1 * a1 - 3 * a2) / 9

/-- `R` of the normalized cubic in `solveCubic`. -/
def cubicR (a1 a2 a3 : ℝ) : ℝ := (2 * a1 * a1 * a1 - 9 * a1 * a2 + 27 * a3) / 54

/-- The body of `solveCubic` after normalization by the leading coefficient:
roots of x^3 + a1*x^2 + a2*x + a3 = 0. -/
def solveCubicNorm (a1 a2 a3 : ℝ) : List ℝ :=
  let Q := cubicQ a1 a2
  let R := cubicR a1 a2 a3
  let R2_Q3 := R * R - Q * Q * Q
  if R2_Q3 < 0 then
    let theta := Real.arccos (R / Real.sqrt (Q * Q * Q))
    let rQ2 := -2 * Real.sqrt Q
    [rQ2 * Real.cos (theta / 3) - a1 / 3,
     rQ2 * Real.cos ((theta + 2 * Real.pi) / 3) - a1 / 3,
     rQ2 * Real.cos ((theta + 4 * Real.pi) / 3) - a1 / 3]
  else
    let x := if Q = 0 ∧ R = 0 then (0 : ℝ)
      else
        let x0 := (Real.sqrt R2_Q3 + |R|) ^ ((1 : ℝ) / 3)
        x0 + Q / x0
    let x1 := if 0 ≤ R then -x else x
    [x1 - a1 / 3]

/-- `solveCubic(a, b, c, d)` from the source: roots of a*x^3 + b*x^2 + c*x + d = 0.
For |a| < 1e-6 it falls back to `solveQuadratic(b, c, d)`. -/
def solveCubic (a b c d : ℝ) : List ℝ :=
  if |a| < 1e-6 then solveQuadratic b c d
  else solveCubicNorm (b / a) (c / a) (d / a)

/-- `calcQuadraticParameters(pt1, pt2, pt3)` from the source. -/
def calcQuadraticParameters (pt1 pt2 pt3 : Pt) : Pt × Pt × Pt :=
  let c := pt1
  let b := pscale 2 (psub pt2 c)
  let a := psub (psub pt3 c) b
  (a, b, c)

/-- `calcCubicParameters(pt1, pt2, pt3, pt4)` from the source. -/
def calcCubicParameters (pt1 pt2 pt3 pt4 : Pt) : Pt × Pt × Pt × Pt :=
  let d := pt1
  let c := pscale 3 (psub pt2 d)
  let b := psub (pscale 3 (psub pt3 pt2)) c
  let a := psub (psub (psub pt4 d) c) b
  (a, b, c, d)

/-- The power-basis quadratic polynomial a*t^2 + b*t + c with point coefficients. -/
def quadPoly (a b c : Pt) (t : ℝ) : Pt :=
  padd (pscale (t * t) a) (padd (pscale t b) c)

/-- The power-basis cubic polynomial a*t^3 + b*t^2 + c*t + d with point coefficients. -/
def cubicPoly (a b c d : Pt) (t : ℝ) : Pt :=
  padd (pscale (t * t * t) a) (padd (pscale (t * t) b) (padd (pscale t c) d))

/-- The point of the quadratic Bézier segment (p1, p2, p3) at parameter t,
via its power-basis coefficients. -/
def quadPointAt (p1 p2 p3 : Pt) (t : ℝ) : Pt :=
  quadPoly (calcQuadraticParameters p1 p2 p3).1
    (calcQuadraticParameters p1 p2 p3).2.1
    (calcQuadraticParameters p1 p2 p3).2.2 t

/-- The point of the cubic Bézier segment (p1, p2, p3, p4) at parameter t,
via its power-basis coefficients. -/
def cubicPointAt (p1 p2 p3 p4 : Pt) (t : ℝ) : Pt :=
  cubicPoly (calcCubicParameters p1 p2 p3 p4).1
    (calcCubicParameters p1 p2 p3 p4).2.1
    (calcCubicParameters p1 p2 p3 p4).2.2.1
    (calcCubicParameters p1 p2 p3 p4).2.2.2 t

/-- `[t for t in solutions if 0 <= t < 1]` from the source. -/
def filterRoots : List ℝ → List ℝ
  | [] => []
  | t :: ts => if 0 ≤ t ∧ t < 1 then t :: filterRoots ts else filterRoots ts

/-- Consecutive pairs `(solutions[i], solutions[i+1])` of a list, as iterated by
the splitting loops. -/
def pairs : List ℝ → List (ℝ × ℝ)
  | t1 :: t2 :: rest => (t1, t2) :: pairs (t2 :: rest)
  | _ => []

/-- One iteration of the `splitQuadratic` loop: the sub-segment of the quadratic
with power-basis coefficients (a, b, c) between parameters t1 and t2. -/
def quadSegmentAt (a b c : Pt) (t1 t2 : ℝ) : Pt × Pt × Pt :=
  let delta := t2 - t1
  let a1 := pscale (delta * delta) a
  let b1 := pscale delta (padd (pscale (2 * t1) a) b)
  let c1 := padd (pscale (t1 * t1) a) (padd (pscale t1 b) c)
  (c1, padd (pscale (1 / 2) b1) c1, padd a1 (padd b1 c1))

/-- One iteration of the `splitCubic` loop: the sub-segment of the cubic with
power-basis coefficients (a, b, c, d) between parameters t1 and t2. -/
def cubicSegmentAt (a b c d : Pt) (t1 t2 : ℝ) : Pt × Pt × Pt × Pt :=
  let delta := t2 - t1
  let a1 := pscale (delta * delta * delta) a
  let b1 := pscale (delta * delta) (padd (pscale (3 * t1) a) b)
  let c1 := pscale delta (padd (pscale (2 * t1) b) (padd c (pscale (3 * t1 * t1) a)))
  let d1 := padd (pscale (t1 * t1 * t1) a) (padd (pscale (t1 * t1) b) (padd (pscale t1 c) d))
  let q1 := d1
  let q2 := padd (pscale (1 / 3) c1) d1
  let q3 := padd (pscale (1 / 3) (padd b1 c1)) q2
  let q4 := padd a1 (padd d1 (padd c1 b1))
  (q1, q2, q3, q4)

/-- `splitLine(pt1, pt2, where, isHorizontal)` from the source. -/
def splitLine (pt1 pt2 : Pt) (w : ℝ) (isHorizontal : Bool) : List (Pt × Pt) :=
  let a := psub pt2 pt1
  let b := pt1
  let ax := coord a isHorizontal
  if ax = 0 then [(pt1, pt2)]
  else
    let t := (w - coord b isHorizontal) / ax
    if 0 ≤ t ∧ t < 1 then
      let midPt := padd (pscale t a) b
      [(pt1, midPt), (midPt, pt2)]
    else [(pt1, pt2)]

/-- `splitQuadratic(pt1, pt2, pt3, where, isHorizontal)` from the source. -/
def splitQuadratic (pt1 pt2 pt3 : Pt) (w : ℝ) (isHorizontal : Bool) :
    List (Pt × Pt × Pt) :=
  let a := (calcQuadraticParameters pt1 pt2 pt3).1
  let b := (calcQuadraticParameters pt1 pt2 pt3).2.1
  let c := (calcQuadraticParameters pt1 pt2 pt3).2.2
  let solutions := List.insertionSort (fun x y => x ≤ y)
    (filterRoots (solveQuadratic (coord a isHorizontal) (coord b isHorizontal)
      (coord c isHorizontal - w)))
  if solutions = [] then [(pt1, pt2, pt3)]
  else (pairs ((0 : ℝ) :: (solutions ++ [1]))).map fun p => quadSegmentAt a b c p.1 p.2

/-- `splitCubic(pt1, pt2, pt3, pt4, where, isHorizontal)` from the source. -/
def splitCubic (pt1 pt2 pt3 pt4 : Pt) (w : ℝ) (isHorizontal : Bool) :
    List (Pt × Pt × Pt × Pt) :=
  let a := (calcCubicParameters pt1 pt2 pt3 pt4).1
  let b := (calcCubicParameters pt1 pt2 pt3 pt4).2.1
  let c := (calcCubicParameters pt1 pt2 pt3 pt4).2.2.1
  let d := (calcCubicParameters pt1 pt2 pt3 pt4).2.2.2
  let solutions := List.insertionSort (fun x y => x ≤ y)
    (filterRoots (solveCubic (coord a isHorizontal) (coord b isHorizontal)
      (coord c isHorizontal) (coord d isHorizontal - w)))
  if solutions = [] then [(pt1, pt2, pt3, pt4)]
  else (pairs ((0 : ℝ) :: (solutions ++ [1]))).map fun p => cubicSegmentAt a b c d p.1 p.2

/-- Modelled from the spec: `calcBounds` (from `fontTools.misc.arrayTools`, not
part of this source tree) computes the axis-aligned bounding rectangle
(minX, minY, maxX, maxY) of a non-empty sequence of points. -/
def calcBounds : List Pt → ℝ × ℝ × ℝ × ℝ
  | [] => (0, 0, 0, 0)
  | [p] => (p.1, p.2, p.1, p.2)
  | p :: q :: rest =>
      let r := calcBounds (q :: rest)
      (min p.1 r.1, min p.2 r.2.1, max p.1 r.2.2.1, max p.2 r.2.2.2)

/-- `calcQuadraticBounds(pt1, pt2, pt3)` from the source. -/
def calcQuadraticBounds (pt1 pt2 pt3 : Pt) : ℝ × ℝ × ℝ × ℝ :=
  let a := (calcQuadraticParameters pt1 pt2 pt3).1
  let b := (calcQuadraticParameters pt1 pt2 pt3).2.1
  let c := (calcQuadraticParameters pt1 pt2 pt3).2.2
  let ax := 2 * a.1
  let ay := 2 * a.2
  let roots := (if ax = 0 then [] else [-b.1 / ax]) ++ (if ay = 0 then [] else [-b.2 / ay])
  let points := (filterRoots roots).map (fun t => quadPoly a b c t) ++ [pt1, pt3]
  calcBounds points

/-- `calcCubicBounds(pt1, pt2, pt3, pt4)` from the source. -/
def calcCubicBounds (pt1 pt2 pt3 pt4 : Pt) : ℝ × ℝ × ℝ × ℝ :=
  let a := (calcCubicParameters pt1 pt2 pt3 pt4).1
  let b := (calcCubicParameters pt1 pt2 pt3 pt4).2.1
  let c := (calcCubicParameters pt1 pt2 pt3 pt4).2.2.1
  let d := (calcCubicParameters pt1 pt2 pt3 pt4).2.2.2
  let xRoots := filterRoots (solveQuadratic (3 * a.1) (2 * b.1) c.1)
  let yRoots := filterRoots (solveQuadratic (3 * a.2) (2 * b.2) c.2)
  let points := (xRoots ++ yRoots).map (fun t => cubicPoly a b c d t) ++ [pt1, pt4]
  calcBounds points

/-- Guarded division: `none` exactly when the Python division would raise. -/
def checkedDiv (x y : ℝ) : Option ℝ := if y = 0 then none else some (x / y)

/-- Guarded square root: `none` exactly when `math.sqrt` would raise. -/
def checkedSqrt (x : ℝ) : Option ℝ := if x < 0 then none else some (Real.sqrt x)

/-- Guarded arc cosine: `none` exactly when `math.acos` would raise. -/
def checkedArccos (x : ℝ) : Option ℝ :=
  if x < -1 ∨ 1 < x then none else some (Real.arccos x)

/-- Guarded real cube root `pow(x, 1/3.0)`: `none` exactly when Python `pow`
with a fractional exponent would raise (negative base). -/
def checkedCbrt (x : ℝ) : Option ℝ := if x < 0 then none else some (x ^ ((1 : ℝ) / 3))

/-- `solveQuadratic` with every partial numeric operation guarded. -/
def solveQuadraticChecked (a b c : ℝ) : Option (List ℝ) :=
  if a = 0 then
    if b = 0 then some []
    else do
      let r ← checkedDiv (-c) b
      some [r]
  else
    if 0 ≤ b * b - 4 * a * c then do
      let rDD ← checkedSqrt (b * b - 4 * a * c)
      let r1 ← checkedDiv ((-b + rDD) / 2) a
      let r2 ← checkedDiv ((-b - rDD) / 2) a
      some [r1, r2]
    else some []

/-- The body of `solveCubic` after normalization, with every partial numeric
operation guarded. -/
def solveCubicNormChecked (a1 a2 a3 : ℝ) : Option (List ℝ) :=
  let Q := cubicQ a1 a2
  let R := cubicR a1 a2 a3
  let R2_Q3 := R * R - Q * Q * Q
  if R2_Q3 < 0 then do
    let sQ3 ← checkedSqrt (Q * Q * Q)
    let ratio ← checkedDiv R sQ3
    let theta ← checkedArccos ratio
    let sQ ← checkedSqrt Q
    some [-2 * sQ * Real.cos (theta / 3) - a1 / 3,
          -2 * sQ * Real.cos ((theta + 2 * Real.pi) / 3) - a1 / 3,
          -2 * sQ * Real.cos ((theta + 4 * Real.pi) / 3) - a1 / 3]
  else do
    let x ←
      if Q = 0 ∧ R = 0 then some (0 : ℝ)
      else do
        let s ← checkedSqrt R2_Q3
        let x0 ← checkedCbrt (s + |R|)
        let q ← checkedDiv Q x0
        some (x0 + q)
    let x1 := if 0 ≤ R then -x else x
    some [x1 - a1 / 3]

/-- `solveCubic` with every partial numeric operation guarded. -/
def solveCubicChecked (a b c d : ℝ) : Option (List ℝ) :=
  if |a| < 1e-6 then solveQuadraticChecked b c d
  else do
    let a1 ← checkedDiv b a
    let a2 ← checkedDiv c a
    let a3 ← checkedDiv d a
    solveCubicNormChecked a1 a2 a3

/-! ### Basic algebraic helper lemmas -/

theorem coord_quadPoly (a b c : Pt) (t : ℝ) (h : Bool) :
    coord (quadPoly a b c t) h = coord a h * (t * t) + coord b h * t + coord c h := by
  cases h <;> simp [coord, quadPoly, padd, pscale] <;> ring

theorem coord_cubicPoly (a b c d : Pt) (t : ℝ) (h : Bool) :
    coord (cubicPoly a b c d t) h =
      coord a h * (t * t * t) + coord b h * (t * t) + coord c h * t + coord d h := by
  cases h <;> simp [coord, cubicPoly, padd, pscale] <;> ring

/-- Every value returned by `solveQuadratic` is a root of the quadratic. -/
theorem solveQuadratic_isRoot {a b c r : ℝ} (hr : r ∈ solveQuadratic a b c) :
    a * r * r + b * r + c = 0 := by
  unfold solveQuadratic at hr
  by_cases ha : a = 0
  · rw [if_pos ha] at hr
    by_cases hb : b = 0
    · rw [if_pos hb] at hr; simp at hr
    · rw [if_neg hb] at hr
      simp only [List.mem_singleton] at hr
      subst hr; subst ha
      field_simp
      ring
  · rw [if_neg ha] at hr
    by_cases hD : 0 ≤ b * b - 4 * a * c
    · rw [if_pos hD] at hr
      have hs : Real.sqrt (b * b - 4 * a * c) * Real.sqrt (b * b - 4 * a * c)
          = b * b - 4 * a * c := Real.mul_self_sqrt hD
      have key : ∀ s : ℝ, s * s = b * b - 4 * a * c →
          a * ((-b + s) / 2 / a) * ((-b + s) / 2 / a) + b * ((-b + s) / 2 / a) + c = 0 := by
        intro s hsq
        have hrw : a * ((-b + s) / 2 / a) * ((-b + s) / 2 / a) + b * ((-b + s) / 2 / a) + c
            = (s * s - (b * b - 4 * a * c)) / (4 * a) := by
          field_simp
          ring
        rw [hrw, hsq, sub_self, zero_div]
      simp only [List.mem_cons, List.not_mem_nil, or_false] at hr
      rcases hr with hr | hr
      · subst hr; exact key _ hs
      · subst hr
        have h2 : (-b - Real.sqrt (b * b - 4 * a * c)) = -b + -Real.sqrt (b * b - 4 * a * c) := by
          ring
        rw [h2]
        exact key _ (by rw [neg_mul_neg]; exact hs)
    · rw [if_neg hD] at hr; simp at hr

theorem mem_filterRoots {l : List ℝ} {r : ℝ} :
    r ∈ filterRoots l ↔ r ∈ l ∧ 0 ≤ r ∧ r < 1 := by
  induction l with
  | nil => simp [filterRoots]
  | cons t ts ih =>
    by_cases h : 0 ≤ t ∧ t < 1
    · rw [filterRoots, if_pos h]
      simp only [List.mem_cons, ih]
      constructor
      · rintro (rfl | ⟨hm, h0, h1⟩)
        · exact ⟨Or.inl rfl, h⟩
        · exact ⟨Or.inr hm, h0, h1⟩
      · rintro ⟨rfl | hm, h0, h1⟩
        · exact Or.inl rfl
        · exact Or.inr ⟨hm, h0, h1⟩
    · rw [filterRoots, if_neg h]
      simp only [List.mem_cons, ih]
      constructor
      · rintro ⟨hm, h0, h1⟩
        exact ⟨Or.inr hm, h0, h1⟩
      · rintro ⟨rfl | hm, h0, h1⟩
        · exact absurd ⟨h0, h1⟩ h
        · exact ⟨hm, h0, h1⟩

theorem filterRoots_eq_nil {l : List ℝ} (h : ∀ r ∈ l, ¬(0 ≤ r ∧ r < 1)) :
    filterRoots l = [] := by
  induction l with
  | nil => rfl
  | cons t ts ih =>
    rw [filterRoots, if_neg (h t (List.mem_cons_self t ts))]
    exact ih fun r hr => h r (List.mem_cons_of_mem t hr)

theorem pairs_cons_cons (t1 t2 : ℝ) (rest : List ℝ) :
    pairs (t1 :: t2 :: rest) = (t1, t2) :: pairs (t2 :: rest) := rfl

/-- Chain coverage: walking the consecutive pairs of `a :: l`, any `t` between
`a` and the last element of the list is bracketed by some pair. -/
theorem pairs_cover (t : ℝ) :
    ∀ (l : List ℝ) (a : ℝ), a ≤ t → (∀ z, (a :: l).getLast? = some z → t ≤ z) →
      l ≠ [] → ∃ p ∈ pairs (a :: l), p.1 ≤ t ∧ t ≤ p.2 := by
  intro l
  induction l with
  | nil => intro a _ _ h; exact absurd rfl h
  | cons b l2 ih =>
    intro a ha hlast _
    cases l2 with
    | nil =>
      refine ⟨(a, b), by simp [pairs], ha, hlast b ?_⟩
      simp
    | cons c rest =>
      by_cases htb : t ≤ b
      · exact ⟨(a, b), by simp [pairs], ha, htb⟩
      · obtain ⟨p, hp, h1, h2⟩ := ih b (le_of_not_le htb)
          (fun z hz => hlast z (by simpa using hz)) (by simp)
        refine ⟨p, ?_, h1, h2⟩
        rw [pairs_cons_cons]
        exact List.mem_cons_of_mem _ hp

/-- Index-wise description of `pairs`. -/
theorem pairs_getElem? :
    ∀ (l : List ℝ) (i : ℕ) (x y : ℝ), l[i]? = some x → l[i + 1]? = some y →
      (pairs l)[i]? = some (x, y) := by
  intro l
  induction l with
  | nil => intro i x y h _; simp at h
  | cons a l2 ih =>
    intro i x y hx hy
    cases l2 with
    | nil =>
      rcases i with _ | j
      · simp at hy
      · simp at hx
    | cons b rest =>
      rcases i with _ | j
      · simp only [List.getElem?_cons_zero, List.getElem?_cons_succ,
          Option.some.injEq] at hx hy
        subst hx; subst hy
        rw [pairs_cons_cons, List.getElem?_cons_zero]
      · have hx2 : (b :: rest)[j]? = some x := by simpa using hx
        have hy2 : (b :: rest)[j + 1]? = some y := by simpa using hy
        simpa [pairs_cons_cons] using ih j x y hx2 hy2

theorem pairs_head? (a b : ℝ) (l : List ℝ) :
    (pairs (a :: b :: l)).head? = some (a, b) := rfl

theorem pairs_getLast? :
    ∀ (l : List ℝ) (p : ℝ × ℝ), (pairs l).getLast? = some p → l.getLast? = some p.2 := by
  intro l
  induction l with
  | nil => intro p h; simp [pairs] at h
  | cons a l2 ih =>
    intro p h
    cases l2 with
    | nil => simp [pairs] at h
    | cons b rest =>
      cases rest with
      | nil =>
        simp only [pairs, List.getLast?_singleton, Option.some.injEq] at h
        subst h
        simp
      | cons c r2 =>
        rw [pairs_cons_cons, pairs_cons_cons, List.getLast?_cons_cons,
          ← pairs_cons_cons] at h
        rw [List.getLast?_cons_cons]
        exact ih p h

theorem quadSegmentAt_eval (a b c : Pt) (t1 t2 s : ℝ) :
    quadPointAt (quadSegmentAt a b c t1 t2).1 (quadSegmentAt a b c t1 t2).2.1
      (quadSegmentAt a b c t1 t2).2.2 s = quadPoly a b c (t1 + (t2 - t1) * s) := by
  simp only [quadSegmentAt, quadPointAt, calcQuadraticParameters, quadPoly,
    padd, psub, pscale, Prod.mk.injEq]
  constructor <;> ring

theorem cubicSegmentAt_eval (a b c d : Pt) (t1 t2 s : ℝ) :
    cubicPointAt (cubicSegmentAt a b c d t1 t2).1 (cubicSegmentAt a b c d t1 t2).2.1
      (cubicSegmentAt a b c d t1 t2).2.2.1 (cubicSegmentAt a b c d t1 t2).2.2.2 s
      = cubicPoly a b c d (t1 + (t2 - t1) * s) := by
  simp only [cubicSegmentAt, cubicPointAt, calcCubicParameters, cubicPoly,
    padd, psub, pscale, Prod.mk.injEq]
  refine ⟨by ring, by ring⟩

theorem quadSegmentAt_fst (a b c : Pt) (t1 t2 : ℝ) :
    (quadSegmentAt a b c t1 t2).1 = quadPoly a b c t1 := by
  rw [Prod.ext_iff]
  constructor <;> simp only [quadSegmentAt, quadPoly, padd, pscale]

theorem quadSegmentAt_last (a b c : Pt) (t1 t2 : ℝ) :
    (quadSegmentAt a b c t1 t2).2.2 = quadPoly a b c t2 := by
  rw [Prod.ext_iff]
  constructor <;> simp only [quadSegmentAt, quadPoly, padd, pscale] <;> ring

theorem cubicSegmentAt_fst (a b c d : Pt) (t1 t2 : ℝ) :
    (cubicSegmentAt a b c d t1 t2).1 = cubicPoly a b c d t1 := by
  rw [Prod.ext_iff]
  constructor <;> simp only [cubicSegmentAt, cubicPoly, padd, pscale]

theorem cubicSegmentAt_last (a b c d : Pt) (t1 t2 : ℝ) :
    (cubicSegmentAt a b c d t1 t2).2.2.2 = cubicPoly a b c d t2 := by
  rw [Prod.ext_iff]
  constructor <;> simp only [cubicSegmentAt, cubicPoly, padd, pscale] <;> ring

theorem quadPointAt_zero (p1 p2 p3 : Pt) : quadPointAt p1 p2 p3 0 = p1 := by
  rw [Prod.ext_iff]
  constructor <;>
    simp only [quadPointAt, calcQuadraticParameters, quadPoly, padd, psub, pscale] <;> ring

theorem quadPointAt_one (p1 p2 p3 : Pt) : quadPointAt p1 p2 p3 1 = p3 := by
  rw [Prod.ext_iff]
  constructor <;>
    simp only [quadPointAt, calcQuadraticParameters, quadPoly, padd, psub, pscale] <;> ring

theorem cubicPointAt_zero (p1 p2 p3 p4 : Pt) : cubicPointAt p1 p2 p3 p4 0 = p1 := by
  rw [Prod.ext_iff]
  constructor <;>
    simp only [cubicPointAt, calcCubicParameters, cubicPoly, padd, psub, pscale] <;> ring

theorem cubicPointAt_one (p1 p2 p3 p4 : Pt) : cubicPointAt p1 p2 p3 p4 1 = p4 := by
  rw [Prod.ext_iff]
  constructor <;>
    simp only [cubicPointAt, calcCubicParameters, cubicPoly, padd, psub, pscale] <;> ring

/-- The bracket list `0 :: sols ++ [1]` always ends in 1. -/
theorem brackets_getLast? (sols : List ℝ) :
    ((0 : ℝ) :: (sols ++ [1])).getLast? = some 1 := by
  rw [show ((0 : ℝ) :: (sols ++ [1])) = (((0 : ℝ) :: sols) ++ [1]) from rfl]
  exact List.getLast?_concat _

/-- Any `t` in [0, 1] is bracketed by a consecutive pair of `0 :: sols ++ [1]`. -/
theorem bracket_cover (sols : List ℝ) (t : ℝ) (ht0 : 0 ≤ t) (ht1 : t ≤ 1) :
    ∃ p ∈ pairs ((0 : ℝ) :: (sols ++ [1])), p.1 ≤ t ∧ t ≤ p.2 := by
  refine pairs_cover t (sols ++ [1]) 0 ht0 ?_ (by simp)
  intro z hz
  rw [brackets_getLast?] at hz
  simp only [Option.some.injEq] at hz
  subst hz
  exact ht1

/-- A global parameter t between t1 and t2 corresponds to a local parameter
s in [0, 1] with t = t1 + (t2 - t1) * s. -/
theorem local_param {t1 t2 t : ℝ} (h1 : t1 ≤ t) (h2 : t ≤ t2) :
    ∃ s, 0 ≤ s ∧ s ≤ 1 ∧ t = t1 + (t2 - t1) * s := by
  by_cases h0 : t2 - t1 = 0
  · refine ⟨0, le_refl 0, zero_le_one, ?_⟩
    have he : t2 = t1 := sub_eq_zero.mp h0
    rw [mul_zero, add_zero]
    linarith
  · have hd : 0 < t2 - t1 := lt_of_le_of_ne (by linarith) (Ne.symm h0)
    refine ⟨(t - t1) / (t2 - t1), div_nonneg (by linarith) hd.le,
      (div_le_one hd).mpr (by linarith), ?_⟩
    field_simp

/-- Consecutive elements of a `pairs` list share their bracket endpoint. -/
theorem pairs_consec : ∀ (l : List ℝ) (i : ℕ) (q1 q2 : ℝ × ℝ),
    (pairs l)[i]? = some q1 → (pairs l)[i + 1]? = some q2 → q1.2 = q2.1 := by
  intro l
  induction l with
  | nil => intro i q1 q2 h1 _; simp [pairs] at h1
  | cons a l2 ih =>
    intro i q1 q2 h1 h2
    cases l2 with
    | nil => simp [pairs] at h1
    | cons b rest =>
      rw [pairs_cons_cons] at h1 h2
      rcases i with _ | j
      · rw [List.getElem?_cons_zero] at h1
        simp only [Option.some.injEq] at h1
        subst h1
        rw [List.getElem?_cons_succ] at h2
        cases rest with
        | nil => simp [pairs] at h2
        | cons c r2 =>
          rw [pairs_cons_cons, List.getElem?_cons_zero] at h2
          simp only [Option.some.injEq] at h2
          subst h2
          rfl
      · rw [List.getElem?_cons_succ] at h1 h2
        exact ih j q1 q2 h1 h2

/-- `splitQuadratic` either returns the original segment or maps the
reparameterization over the bracketed solution pairs. -/
theorem splitQuadratic_cases (p1 p2 p3 : Pt) (w : ℝ) (isH : Bool) :
    splitQuadratic p1 p2 p3 w isH = [(p1, p2, p3)] ∨
    (∃ sols : List ℝ, sols ≠ [] ∧
      splitQuadratic p1 p2 p3 w isH =
        (pairs ((0 : ℝ) :: (sols ++ [1]))).map fun p =>
          quadSegmentAt (calcQuadraticParameters p1 p2 p3).1
            (calcQuadraticParameters p1 p2 p3).2.1
            (calcQuadraticParameters p1 p2 p3).2.2 p.1 p.2) := by
  simp only [splitQuadratic]
  split
  · exact Or.inl rfl
  · next h => exact Or.inr ⟨_, h, rfl⟩

/-- `splitCubic` either returns the original segment or maps the
reparameterization over the bracketed solution pairs. -/
theorem splitCubic_cases (p1 p2 p3 p4 : Pt) (w : ℝ) (isH : Bool) :
    splitCubic p1 p2 p3 p4 w isH = [(p1, p2, p3, p4)] ∨
    (∃ sols : List ℝ, sols ≠ [] ∧
      splitCubic p1 p2 p3 p4 w isH =
        (pairs ((0 : ℝ) :: (sols ++ [1]))).map fun p =>
          cubicSegmentAt (calcCubicParameters p1 p2 p3 p4).1
            (calcCubicParameters p1 p2 p3 p4).2.1
            (calcCubicParameters p1 p2 p3 p4).2.2.1
            (calcCubicParameters p1 p2 p3 p4).2.2.2 p.1 p.2) := by
  simp only [splitCubic]
  split
  · exact Or.inl rfl
  · next h => exact Or.inr ⟨_, h, rfl⟩

/-- C1: For every quadratic segment (p1,p2,p3) and every cubic segment
(p1,p2,p3,p4), any `where` value and either axis, the sub-segments returned by
`splitQuadratic` (resp. `splitCubic`) reconstruct the original curve: for every
global parameter t in [0,1] there is an output segment and bracket parameters
t1, t2 with a local parameter s in [0,1], t = t1 + (t2-t1)*s, whose power-basis
polynomial at s equals the original power-basis polynomial at t (exactly, in
real arithmetic). -/
theorem split_reconstructs_curve :
    (∀ (p1 p2 p3 : Pt) (w : ℝ) (isH : Bool) (t : ℝ), 0 ≤ t → t ≤ 1 →
      ∃ seg ∈ splitQuadratic p1 p2 p3 w isH, ∃ t1 t2 s : ℝ, 0 ≤ s ∧ s ≤ 1 ∧
        t = t1 + (t2 - t1) * s ∧
        quadPointAt seg.1 seg.2.1 seg.2.2 s = quadPointAt p1 p2 p3 t) ∧
    (∀ (p1 p2 p3 p4 : Pt) (w : ℝ) (isH : Bool) (t : ℝ), 0 ≤ t → t ≤ 1 →
      ∃ seg ∈ splitCubic p1 p2 p3 p4 w isH, ∃ t1 t2 s : ℝ, 0 ≤ s ∧ s ≤ 1 ∧
        t = t1 + (t2 - t1) * s ∧
        cubicPointAt seg.1 seg.2.1 seg.2.2.1 seg.2.2.2 s = cubicPointAt p1 p2 p3 p4 t) := by
  constructor
  · intro p1 p2 p3 w isH t ht0 ht1
    rcases splitQuadratic_cases p1 p2 p3 w isH with h | ⟨sols, _, h⟩
    · rw [h]
      exact ⟨(p1, p2, p3), List.mem_singleton_self _, 0, 1, t, ht0, ht1, by ring, rfl⟩
    · obtain ⟨p, hp, hp1, hp2⟩ := bracket_cover sols t ht0 ht1
      obtain ⟨s, hs0, hs1, hts⟩ := local_param hp1 hp2
      rw [h]
      refine ⟨quadSegmentAt (calcQuadraticParameters p1 p2 p3).1
          (calcQuadraticParameters p1 p2 p3).2.1
          (calcQuadraticParameters p1 p2 p3).2.2 p.1 p.2,
        List.mem_map_of_mem _ hp, p.1, p.2, s, hs0, hs1, hts, ?_⟩
      rw [quadSegmentAt_eval, ← hts]
      rfl
  · intro p1 p2 p3 p4 w isH t ht0 ht1
    rcases splitCubic_cases p1 p2 p3 p4 w isH with h | ⟨sols, _, h⟩
    · rw [h]
      exact ⟨(p1, p2, p3, p4), List.mem_singleton_self _, 0, 1, t, ht0, ht1, by ring, rfl⟩
    · obtain ⟨p, hp, hp1, hp2⟩ := bracket_cover sols t ht0 ht1
      obtain ⟨s, hs0, hs1, hts⟩ := local_param hp1 hp2
      rw [h]
      refine ⟨cubicSegmentAt (calcCubicParameters p1 p2 p3 p4).1
          (calcCubicParameters p1 p2 p3 p4).2.1
          (calcCubicParameters p1 p2 p3 p4).2.2.1
          (calcCubicParameters p1 p2 p3 p4).2.2.2 p.1 p.2,
        List.mem_map_of_mem _ hp, p.1, p.2, s, hs0, hs1, hts, ?_⟩
      rw [cubicSegmentAt_eval, ← hts]
      rfl

/-- C10: Whenever `splitQuadratic` or `splitCubic` returns more than one
segment, consecutive output segments join exactly (the last control point of
segment i equals the first control point of segment i+1), the first output
segment starts at B(0) and the last output segment ends at B(1), where B is
the original curve's power-basis polynomial. -/
theorem split_segments_join :
    (∀ (p1 p2 p3 : Pt) (w : ℝ) (isH : Bool),
      1 < (splitQuadratic p1 p2 p3 w isH).length →
      (∀ (i : ℕ) (s1 s2 : Pt × Pt × Pt),
          (splitQuadratic p1 p2 p3 w isH)[i]? = some s1 →
          (splitQuadratic p1 p2 p3 w isH)[i + 1]? = some s2 → s1.2.2 = s2.1) ∧
      (∀ s1, (splitQuadratic p1 p2 p3 w isH).head? = some s1 →
          s1.1 = quadPointAt p1 p2 p3 0) ∧
      (∀ s2, (splitQuadratic p1 p2 p3 w isH).getLast? = some s2 →
          s2.2.2 = quadPointAt p1 p2 p3 1)) ∧
    (∀ (p1 p2 p3 p4 : Pt) (w : ℝ) (isH : Bool),
      1 < (splitCubic p1 p2 p3 p4 w isH).length →
      (∀ (i : ℕ) (s1 s2 : Pt × Pt × Pt × Pt),
          (splitCubic p1 p2 p3 p4 w isH)[i]? = some s1 →
          (splitCubic p1 p2 p3 p4 w isH)[i + 1]? = some s2 → s1.2.2.2 = s2.1) ∧
      (∀ s1, (splitCubic p1 p2 p3 p4 w isH).head? = some s1 →
          s1.1 = cubicPointAt p1 p2 p3 p4 0) ∧
      (∀ s2, (splitCubic p1 p2 p3 p4 w isH).getLast? = some s2 →
          s2.2.2.2 = cubicPointAt p1 p2 p3 p4 1)) := by
  constructor
  · intro p1 p2 p3 w isH hlen
    rcases splitQuadratic_cases p1 p2 p3 w isH with h | ⟨sols, hne, h⟩
    · rw [h] at hlen; simp at hlen
    · refine ⟨?_, ?_, ?_⟩
      · intro i s1 s2 h1 h2
        rw [h, List.getElem?_map] at h1 h2
        cases hq1 : (pairs ((0 : ℝ) :: (sols ++ [1])))[i]? with
        | none => rw [hq1] at h1; simp at h1
        | some q1 =>
          rw [hq1] at h1
          simp only [Option.map_some', Option.some.injEq] at h1
          cases hq2 : (pairs ((0 : ℝ) :: (sols ++ [1])))[i + 1]? with
          | none => rw [hq2] at h2; simp at h2
          | some q2 =>
            rw [hq2] at h2
            simp only [Option.map_some', Option.some.injEq] at h2
            subst h1; subst h2
            have hc := pairs_consec _ i q1 q2 hq1 hq2
            rw [quadSegmentAt_last, quadSegmentAt_fst, hc]
      · intro s1 h1
        cases sols with
        | nil => exact absurd rfl hne
        | cons x xs =>
          rw [h] at h1
          rw [show ((0 : ℝ) :: ((x :: xs) ++ [1])) = ((0 : ℝ) :: x :: (xs ++ [1]))
            from rfl] at h1
          rw [List.head?_map, pairs_head?] at h1
          simp only [Option.map_some', Option.some.injEq] at h1
          subst h1
          rw [quadSegmentAt_fst]
          rfl
      · intro s2 h2
        rw [h, List.getLast?_map] at h2
        cases hq : (pairs ((0 : ℝ) :: (sols ++ [1]))).getLast? with
        | none => rw [hq] at h2; simp at h2
        | some q =>
          rw [hq] at h2
          simp only [Option.map_some', Option.some.injEq] at h2
          subst h2
          have hl := pairs_getLast? _ q hq
          rw [brackets_getLast?] at hl
          simp only [Option.some.injEq] at hl
          rw [quadSegmentAt_last, ← hl]
          rfl
  · intro p1 p2 p3 p4 w isH hlen
    rcases splitCubic_cases p1 p2 p3 p4 w isH with h | ⟨sols, hne, h⟩
    · rw [h] at hlen; simp at hlen
    · refine ⟨?_, ?_, ?_⟩
      · intro i s1 s2 h1 h2
        rw [h, List.getElem?_map] at h1 h2
        cases hq1 : (pairs ((0 : ℝ) :: (sols ++ [1])))[i]? with
        | none => rw [hq1] at h1; simp at h1
        | some q1 =>
          rw [hq1] at h1
          simp only [Option.map_some', Option.some.injEq] at h1
          cases hq2 : (pairs ((0 : ℝ) :: (sols ++ [1])))[i + 1]? with
          | none => rw [hq2] at h2; simp at h2
          | some q2 =>
            rw [hq2] at h2
            simp only [Option.map_some', Option.some.injEq] at h2
            subst h1; subst h2
            have hc := pairs_consec _ i q1 q2 hq1 hq2
            rw [cubicSegmentAt_last, cubicSegmentAt_fst, hc]
      · intro s1 h1
        cases sols with
        | nil => exact absurd rfl hne
        | cons x xs =>
          rw [h] at h1
          rw [show ((0 : ℝ) :: ((x :: xs) ++ [1])) = ((0 : ℝ) :: x :: (xs ++ [1]))
            from rfl] at h1
          rw [List.head?_map, pairs_head?] at h1
          simp only [Option.map_some', Option.some.injEq] at h1
          subst h1
          rw [cubicSegmentAt_fst]
          rfl
      · intro s2 h2
        rw [h, List.getLast?_map] at h2
        cases hq : (pairs ((0 : ℝ) :: (sols ++ [1]))).getLast? with
        | none => rw [hq] at h2; simp at h2
        | some q =>
          rw [hq] at h2
          simp only [Option.map_some', Option.some.injEq] at h2
          subst h2
          have hl := pairs_getLast? _ q hq
          rw [brackets_getLast?] at hl
          simp only [Option.some.injEq] at hl
          rw [cubicSegmentAt_last, ← hl]
          rfl

/-- Witness for C1 at the quadratic segment ((0,0),(50,100),(100,0)), where 50,
vertical axis, global parameter 1/2. -/
theorem split_reconstructs_curve_witness :
    (0 : ℝ) ≤ 1 / 2 ∧ (1 / 2 : ℝ) ≤ 1 ∧
    (∃ seg ∈ splitQuadratic (0, 0) (50, 100) (100, 0) 50 false, ∃ t1 t2 s : ℝ,
      0 ≤ s ∧ s ≤ 1 ∧ (1 / 2 : ℝ) = t1 + (t2 - t1) * s ∧
      quadPointAt seg.1 seg.2.1 seg.2.2 s = quadPointAt (0, 0) (50, 100) (100, 0) (1 / 2)) :=
  ⟨by norm_num, by norm_num,
    split_reconstructs_curve.1 (0, 0) (50, 100) (100, 0) 50 false (1 / 2)
      (by norm_num) (by norm_num)⟩

/-- C2: for every |a| < 1e-6 and all b, c, d, `solveCubic(a,b,c,d)` returns
exactly the same root list as `solveQuadratic(b,c,d)` (delegation law). -/
theorem solveCubic_delegates (a b c d : ℝ) (ha : |a| < 1e-6) :
    solveCubic a b c d = solveQuadratic b c d := by
  rw [solveCubic, if_pos ha]

/-- Witness for C2 at a = 0, matching the spec example
`solveCubic(0, 1, 0, -4) = solveQuadratic(1, 0, -4)`. -/
theorem solveCubic_delegates_witness :
    |(0 : ℝ)| < 1e-6 ∧ solveCubic 0 1 0 (-4) = solveQuadratic 1 0 (-4) :=
  ⟨by norm_num, solveCubic_delegates 0 1 0 (-4) (by norm_num)⟩

/-- C3: `solveQuadratic` returns [] when a = 0 and b = 0; [-c/b] when a = 0 and
b ≠ 0; [] when the discriminant is negative; and exactly the two roots
(-b ± √D)/(2a) when D ≥ 0; with the spec's concrete cases. -/
theorem solveQuadratic_spec :
    (∀ a b c : ℝ, a = 0 → b = 0 → solveQuadratic a b c = []) ∧
    (∀ a b c : ℝ, a = 0 → b ≠ 0 → solveQuadratic a b c = [-c / b]) ∧
    (∀ a b c : ℝ, a ≠ 0 → b * b - 4 * a * c < 0 → solveQuadratic a b c = []) ∧
    (∀ a b c : ℝ, a ≠ 0 → 0 ≤ b * b - 4 * a * c →
      solveQuadratic a b c =
        [(-b + Real.sqrt (b * b - 4 * a * c)) / (2 * a),
         (-b - Real.sqrt (b * b - 4 * a * c)) / (2 * a)]) ∧
    solveQuadratic 1 0 (-4) = [2, -2] ∧
    solveQuadratic 0 0 5 = [] ∧
    solveQuadratic 0 2 (-4) = [2] := by
  have h16 : Real.sqrt 16 = 4 := by
    rw [show (16 : ℝ) = 4 ^ 2 by norm_num, Real.sqrt_sq (by norm_num : (0 : ℝ) ≤ 4)]
  refine ⟨?_, ?_, ?_, ?_, ?_, ?_, ?_⟩
  · intro a b c ha hb
    rw [solveQuadratic, if_pos ha, if_pos hb]
  · intro a b c ha hb
    rw [solveQuadratic, if_pos ha, if_neg hb]
  · intro a b c ha hD
    rw [solveQuadratic, if_neg ha, if_neg (not_le.mpr hD)]
  · intro a b c ha hD
    rw [solveQuadratic, if_neg ha, if_pos hD, div_div, div_div]
  · rw [solveQuadratic, if_neg (by norm_num), if_pos (by norm_num)]
    norm_num [h16]
  · rw [solveQuadratic, if_pos (by norm_num), if_pos (by norm_num)]
  · rw [solveQuadratic, if_pos (by norm_num), if_neg (by norm_num)]
    norm_num

/-- Witness for C3, exercising the linear branch at (0, 2, -4). -/
theorem solveQuadratic_spec_witness :
    (0 : ℝ) = 0 ∧ (2 : ℝ) ≠ 0 ∧ solveQuadratic 0 2 (-4) = [-(-4) / 2] :=
  ⟨rfl, by norm_num, solveQuadratic_spec.2.1 0 2 (-4) rfl (by norm_num)⟩

/-- C5: `splitLine` returns the original segment when the axis delta is 0;
otherwise, with t = (where - b[axis]) / a[axis], it returns the two segments
sharing midpoint a*t + b when 0 ≤ t < 1 and the original segment otherwise;
with the spec's concrete cases. -/
theorem splitLine_spec :
    (∀ (p1 p2 : Pt) (w : ℝ) (isH : Bool), coord (psub p2 p1) isH = 0 →
      splitLine p1 p2 w isH = [(p1, p2)]) ∧
    (∀ (p1 p2 : Pt) (w : ℝ) (isH : Bool), coord (psub p2 p1) isH ≠ 0 →
      0 ≤ (w - coord p1 isH) / coord (psub p2 p1) isH →
      (w - coord p1 isH) / coord (psub p2 p1) isH < 1 →
      splitLine p1 p2 w isH =
        [(p1, padd (pscale ((w - coord p1 isH) / coord (psub p2 p1) isH) (psub p2 p1)) p1),
         (padd (pscale ((w - coord p1 isH) / coord (psub p2 p1) isH) (psub p2 p1)) p1, p2)]) ∧
    (∀ (p1 p2 : Pt) (w : ℝ) (isH : Bool), coord (psub p2 p1) isH ≠ 0 →
      ¬(0 ≤ (w - coord p1 isH) / coord (psub p2 p1) isH ∧
        (w - coord p1 isH) / coord (psub p2 p1) isH < 1) →
      splitLine p1 p2 w isH = [(p1, p2)]) ∧
    splitLine (0, 0) (100, 100) 50 true = [((0, 0), (50, 50)), ((50, 50), (100, 100))] ∧
    splitLine (0, 0) (100, 100) 100 true = [((0, 0), (100, 100))] := by
  refine ⟨?_, ?_, ?_, ?_, ?_⟩
  · intro p1 p2 w isH h
    rw [splitLine]
    simp [h]
  · intro p1 p2 w isH h h0 h1
    rw [splitLine]
    simp only [if_neg h, if_pos (And.intro h0 h1)]
  · intro p1 p2 w isH h hn
    rw [splitLine]
    simp only [if_neg h, if_neg hn]
  · rw [splitLine]
    norm_num [coord, psub, padd, pscale]
  · rw [splitLine]
    norm_num [coord, psub, padd, pscale]

/-- Witness for C5, exercising the zero-axis-delta branch on a vertical line
split along x. -/
theorem splitLine_spec_witness :
    coord (psub ((0 : ℝ), (100 : ℝ)) ((0 : ℝ), (0 : ℝ))) false = 0 ∧
    splitLine (0, 0) (0, 100) 5 false = [((0, 0), (0, 100))] :=
  ⟨by norm_num [coord, psub],
    splitLine_spec.1 (0, 0) (0, 100) 5 false (by norm_num [coord, psub])⟩

/-- C8: the parameter-extraction functions compute exactly the power-basis
coefficients c = p1, b = 2(p2-c), a = p3-c-b (quadratic) and d = p1,
c = 3(p2-d), b = 3(p3-p2)-c, a = p4-d-c-b (cubic), and the resulting
polynomial satisfies B(0) = first control point and B(1) = last control
point. -/
theorem calcParameters_spec :
    (∀ p1 p2 p3 : Pt,
      (calcQuadraticParameters p1 p2 p3).2.2 = p1 ∧
      (calcQuadraticParameters p1 p2 p3).2.1 = pscale 2 (psub p2 p1) ∧
      (calcQuadraticParameters p1 p2 p3).1 =
        psub (psub p3 p1) (pscale 2 (psub p2 p1)) ∧
      quadPointAt p1 p2 p3 0 = p1 ∧ quadPointAt p1 p2 p3 1 = p3) ∧
    (∀ p1 p2 p3 p4 : Pt,
      (calcCubicParameters p1 p2 p3 p4).2.2.2 = p1 ∧
      (calcCubicParameters p1 p2 p3 p4).2.2.1 = pscale 3 (psub p2 p1) ∧
      (calcCubicParameters p1 p2 p3 p4).2.1 =
        psub (pscale 3 (psub p3 p2)) (pscale 3 (psub p2 p1)) ∧
      (calcCubicParameters p1 p2 p3 p4).1 =
        psub (psub (psub p4 p1) (pscale 3 (psub p2 p1)))
          (psub (pscale 3 (psub p3 p2)) (pscale 3 (psub p2 p1))) ∧
      cubicPointAt p1 p2 p3 p4 0 = p1 ∧ cubicPointAt p1 p2 p3 p4 1 = p4) := by
  constructor
  · intro p1 p2 p3
    exact ⟨rfl, rfl, rfl, quadPointAt_zero p1 p2 p3, quadPointAt_one p1 p2 p3⟩
  · intro p1 p2 p3 p4
    exact ⟨rfl, rfl, rfl, rfl, cubicPointAt_zero p1 p2 p3 p4, cubicPointAt_one p1 p2 p3 p4⟩

theorem solveQuadraticChecked_eq (a b c : ℝ) :
    solveQuadraticChecked a b c = some (solveQuadratic a b c) := by
  by_cases ha : a = 0
  · by_cases hb : b = 0
    · simp [solveQuadraticChecked, solveQuadratic, ha, hb]
    · simp [solveQuadraticChecked, solveQuadratic, checkedDiv, ha, hb, neg_div]
  · by_cases hD : 0 ≤ b * b - 4 * a * c
    · simp [solveQuadraticChecked, solveQuadratic, checkedDiv, checkedSqrt,
        ha, hD, not_lt.mpr hD, div_div]
    · simp [solveQuadraticChecked, solveQuadratic, ha, hD]

theorem solveCubicNormChecked_eq (a1 a2 a3 : ℝ) :
    solveCubicNormChecked a1 a2 a3 = some (solveCubicNorm a1 a2 a3) := by
  simp only [solveCubicNormChecked, solveCubicNorm]
  set Q := cubicQ a1 a2 with hQdef
  set R := cubicR a1 a2 a3 with hRdef
  by_cases hlt : R * R - Q * Q * Q < 0
  · rw [if_pos hlt, if_pos hlt]
    have hQ3 : 0 < Q * Q * Q := lt_of_le_of_lt (mul_self_nonneg R) (by linarith)
    have hQ : 0 < Q := by nlinarith [mul_self_nonneg Q]
    have hs3 : checkedSqrt (Q * Q * Q) = some (Real.sqrt (Q * Q * Q)) := by
      rw [checkedSqrt, if_neg (not_lt.mpr hQ3.le)]
    have hsq3pos : 0 < Real.sqrt (Q * Q * Q) := Real.sqrt_pos.mpr hQ3
    have hdiv : checkedDiv R (Real.sqrt (Q * Q * Q))
        = some (R / Real.sqrt (Q * Q * Q)) := by
      rw [checkedDiv, if_neg (ne_of_gt hsq3pos)]
    have habs : |R| < Real.sqrt (Q * Q * Q) := by
      nlinarith [abs_mul_abs_self R, Real.mul_self_sqrt hQ3.le, abs_nonneg R, hsq3pos]
    have hratio : checkedArccos (R / Real.sqrt (Q * Q * Q))
        = some (Real.arccos (R / Real.sqrt (Q * Q * Q))) := by
      rw [checkedArccos, if_neg]
      push_neg
      obtain ⟨hlo, hhi⟩ := abs_lt.mp habs
      constructor
      · rw [le_div_iff₀ hsq3pos]
        linarith
      · rw [div_le_one hsq3pos]
        linarith
    have hsQ : checkedSqrt Q = some (Real.sqrt Q) := by
      rw [checkedSqrt, if_neg (not_lt.mpr hQ.le)]
    rw [hs3]
    dsimp only [Bind.bind, Option.bind]
    rw [hdiv]
    dsimp only [Option.bind]
    rw [hratio]
    dsimp only [Option.bind]
    rw [hsQ]
  · rw [if_neg hlt, if_neg hlt]
    have hge : 0 ≤ R * R - Q * Q * Q := not_lt.mp hlt
    by_cases hzero : Q = 0 ∧ R = 0
    · rw [if_pos hzero, if_pos hzero]
      dsimp only [Bind.bind, Option.bind]
    · rw [if_neg hzero, if_neg hzero]
      have hss : checkedSqrt (R * R - Q * Q * Q)
          = some (Real.sqrt (R * R - Q * Q * Q)) := by
        rw [checkedSqrt, if_neg (not_lt.mpr hge)]
      have hbase : 0 < Real.sqrt (R * R - Q * Q * Q) + |R| := by
        rcases eq_or_ne R 0 with hR | hR
        · have hQne : Q ≠ 0 := fun h => hzero ⟨h, hR⟩
          have hne : R * R - Q * Q * Q ≠ 0 := by
            rw [hR]
            intro h
            have h3 : Q * Q * Q = 0 := by linarith
            rcases mul_eq_zero.mp h3 with h2 | h2
            · exact hQne (mul_self_eq_zero.mp h2)
            · exact hQne h2
          have hpos : 0 < R * R - Q * Q * Q := lt_of_le_of_ne hge (Ne.symm hne)
          exact add_pos_of_pos_of_nonneg (Real.sqrt_pos.mpr hpos) (abs_nonneg R)
        · exact add_pos_of_nonneg_of_pos (Real.sqrt_nonneg _) (abs_pos.mpr hR)
      have hcbrt : checkedCbrt (Real.sqrt (R * R - Q * Q * Q) + |R|)
          = some ((Real.sqrt (R * R - Q * Q * Q) + |R|) ^ ((1 : ℝ) / 3)) := by
        rw [checkedCbrt, if_neg (not_lt.mpr hbase.le)]
      have hx0pos : 0 < (Real.sqrt (R * R - Q * Q * Q) + |R|) ^ ((1 : ℝ) / 3) :=
        Real.rpow_pos_of_pos hbase _
      have hdivQ : checkedDiv Q ((Real.sqrt (R * R - Q * Q * Q) + |R|) ^ ((1 : ℝ) / 3))
          = some (Q / (Real.sqrt (R * R - Q * Q * Q) + |R|) ^ ((1 : ℝ) / 3)) := by
        rw [checkedDiv, if_neg (ne_of_gt hx0pos)]
      rw [hss]
      dsimp only [Bind.bind, Option.bind]
      rw [hcbrt]
      dsimp only [Option.bind]
      rw [hdivQ]

theorem solveCubicChecked_eq (a b c d : ℝ) :
    solveCubicChecked a b c d = some (solveCubic a b c d) := by
  by_cases ha : |a| < 1e-6
  · rw [solveCubicChecked, solveCubic, if_pos ha, if_pos ha]
    exact solveQuadraticChecked_eq b c d
  · have ha0 : a ≠ 0 := fun h => ha (by rw [h]; norm_num)
    rw [solveCubicChecked, solveCubic, if_neg ha, if_neg ha]
    rw [show checkedDiv b a = some (b / a) from by rw [checkedDiv, if_neg ha0]]
    dsimp only [Bind.bind, Option.bind]
    rw [show checkedDiv c a = some (c / a) from by rw [checkedDiv, if_neg ha0]]
    dsimp only [Option.bind]
    rw [show checkedDiv d a = some (d / a) from by rw [checkedDiv, if_neg ha0]]
    dsimp only [Option.bind]
    exact solveCubicNormChecked_eq _ _ _

/-- C9: `solveQuadratic` and `solveCubic` are total and never raise: running
them with every division, square root, arc cosine and fractional power guarded
(returning `none` exactly where the Python operation would raise) always
produces `some` of the unguarded result, on all real inputs. -/
theorem solvers_never_raise :
    (∀ a b c : ℝ, solveQuadraticChecked a b c = some (solveQuadratic a b c)) ∧
    (∀ a b c d : ℝ, solveCubicChecked a b c d = some (solveCubic a b c d)) :=
  ⟨solveQuadraticChecked_eq, solveCubicChecked_eq⟩

/-- The substitution y = t + a1/3 turning the monic cubic into its depressed
form with the code's Q and R. -/
theorem cubic_depressed (a1 a2 a3 t : ℝ) :
    t * t * t + a1 * (t * t) + a2 * t + a3 =
      (t + a1 / 3) * (t + a1 / 3) * (t + a1 / 3)
        - 3 * cubicQ a1 a2 * (t + a1 / 3) + 2 * cubicR a1 a2 a3 := by
  simp only [cubicQ, cubicR]
  ring

/-- The trigonometric formula solves the depressed cubic y³ - 3Qy + 2R = 0. -/
theorem depressed_trig_root (Q R φ : ℝ) (hQ : 0 < Q)
    (hcos3 : Real.cos (3 * φ) = R / Real.sqrt (Q * Q * Q)) :
    (-2 * Real.sqrt Q * Real.cos φ) * (-2 * Real.sqrt Q * Real.cos φ)
      * (-2 * Real.sqrt Q * Real.cos φ)
      - 3 * Q * (-2 * Real.sqrt Q * Real.cos φ) + 2 * R = 0 := by
  have hsq : Real.sqrt Q * Real.sqrt Q = Q := Real.mul_self_sqrt hQ.le
  have hq3 : Real.sqrt (Q * Q * Q) = Q * Real.sqrt Q := by
    rw [Real.sqrt_mul (mul_self_nonneg Q) Q, Real.sqrt_mul_self hQ.le]
  have hne : Q * Real.sqrt Q ≠ 0 := ne_of_gt (mul_pos hQ (Real.sqrt_pos.mpr hQ))
  have hc3 : (4 * Real.cos φ ^ 3 - 3 * Real.cos φ) * (Q * Real.sqrt Q) = R := by
    have h := hcos3
    rw [Real.cos_three_mul, hq3, eq_div_iff hne] at h
    exact h
  linear_combination (-2 : ℝ) * hc3 + (-8 * Real.cos φ ^ 3 * Real.sqrt Q) * hsq

/-- The Cardano formula solves the depressed cubic, R ≥ 0 case. -/
theorem depressed_cardano_pos (Q R s x0 : ℝ) (hx0 : x0 ≠ 0)
    (hs2 : s * s = R * R - Q * Q * Q)
    (hx3 : x0 * x0 * x0 = s + R) (hsR : s + R ≠ 0) :
    (-(x0 + Q / x0)) * (-(x0 + Q / x0)) * (-(x0 + Q / x0))
      - 3 * Q * (-(x0 + Q / x0)) + 2 * R = 0 := by
  have hxq : x0 * (Q / x0) = Q := by field_simp
  have hq3 : Q / x0 * (Q / x0) * (Q / x0) = R - s := by
    have h1 : Q / x0 * (Q / x0) * (Q / x0) = Q * Q * Q / (s + R) := by
      rw [div_mul_div_comm, div_mul_div_comm, hx3]
    rw [h1, div_eq_iff hsR]
    linear_combination hs2
  linear_combination (-1 : ℝ) * hx3 + (-1 : ℝ) * hq3 + (-3 * (x0 + Q / x0)) * hxq

/-- The Cardano formula solves the depressed cubic, R < 0 case. -/
theorem depressed_cardano_neg (Q R s x0 : ℝ) (hx0 : x0 ≠ 0)
    (hs2 : s * s = R * R - Q * Q * Q)
    (hx3 : x0 * x0 * x0 = s - R) (hsR : s - R ≠ 0) :
    (x0 + Q / x0) * (x0 + Q / x0) * (x0 + Q / x0)
      - 3 * Q * (x0 + Q / x0) + 2 * R = 0 := by
  have hxq : x0 * (Q / x0) = Q := by field_simp
  have hq3 : Q / x0 * (Q / x0) * (Q / x0) = -R - s := by
    have h1 : Q / x0 * (Q / x0) * (Q / x0) = Q * Q * Q / (s - R) := by
      rw [div_mul_div_comm, div_mul_div_comm, hx3]
    rw [h1, div_eq_iff hsR]
    linear_combination hs2
  linear_combination (1 : ℝ) * hx3 + (1 : ℝ) * hq3 + (3 * (x0 + Q / x0)) * hxq

/-- Every value returned by the normalized cubic solver is a root of the monic
cubic. -/
theorem solveCubicNorm_isRoot (a1 a2 a3 r : ℝ) (hr : r ∈ solveCubicNorm a1 a2 a3) :
    r * r * r + a1 * (r * r) + a2 * r + a3 = 0 := by
  simp only [solveCubicNorm] at hr
  set Q := cubicQ a1 a2 with hQdef
  set R := cubicR a1 a2 a3 with hRdef
  rw [cubic_depressed, ← hQdef, ← hRdef]
  by_cases hlt : R * R - Q * Q * Q < 0
  · rw [if_pos hlt] at hr
    have hQ3 : 0 < Q * Q * Q := lt_of_le_of_lt (mul_self_nonneg R) (by linarith)
    have hQpos : 0 < Q := by nlinarith [mul_self_nonneg Q]
    have hsq3pos : 0 < Real.sqrt (Q * Q * Q) := Real.sqrt_pos.mpr hQ3
    have habs : |R| < Real.sqrt (Q * Q * Q) := by
      nlinarith [abs_mul_abs_self R, Real.mul_self_sqrt hQ3.le, abs_nonneg R, hsq3pos]
    obtain ⟨hlo, hhi⟩ := abs_lt.mp habs
    have harc : Real.cos (Real.arccos (R / Real.sqrt (Q * Q * Q)))
        = R / Real.sqrt (Q * Q * Q) :=
      Real.cos_arccos (by rw [le_div_iff₀ hsq3pos]; linarith)
        (by rw [div_le_one hsq3pos]; linarith)
    simp only [List.mem_cons, List.not_mem_nil, or_false] at hr
    rcases hr with hr | hr | hr <;> subst hr
    · have hc : Real.cos (3 * (Real.arccos (R / Real.sqrt (Q * Q * Q)) / 3))
          = R / Real.sqrt (Q * Q * Q) := by
        rw [show 3 * (Real.arccos (R / Real.sqrt (Q * Q * Q)) / 3)
            = Real.arccos (R / Real.sqrt (Q * Q * Q)) by ring, harc]
      linear_combination depressed_trig_root Q R _ hQpos hc
    · have hc : Real.cos (3 * ((Real.arccos (R / Real.sqrt (Q * Q * Q))
          + 2 * Real.pi) / 3)) = R / Real.sqrt (Q * Q * Q) := by
        rw [show 3 * ((Real.arccos (R / Real.sqrt (Q * Q * Q)) + 2 * Real.pi) / 3)
            = Real.arccos (R / Real.sqrt (Q * Q * Q)) + 2 * Real.pi by ring,
          Real.cos_add_two_pi, harc]
      linear_combination depressed_trig_root Q R _ hQpos hc
    · have hc : Real.cos (3 * ((Real.arccos (R / Real.sqrt (Q * Q * Q))
          + 4 * Real.pi) / 3)) = R / Real.sqrt (Q * Q * Q) := by
        rw [show 3 * ((Real.arccos (R / Real.sqrt (Q * Q * Q)) + 4 * Real.pi) / 3)
            = Real.arccos (R / Real.sqrt (Q * Q * Q)) + 2 * Real.pi + 2 * Real.pi
            by ring, Real.cos_add_two_pi, Real.cos_add_two_pi, harc]
      linear_combination depressed_trig_root Q R _ hQpos hc
  · rw [if_neg hlt] at hr
    have hge : 0 ≤ R * R - Q * Q * Q := not_lt.mp hlt
    have hs2 : Real.sqrt (R * R - Q * Q * Q) * Real.sqrt (R * R - Q * Q * Q)
        = R * R - Q * Q * Q := Real.mul_self_sqrt hge
    simp only [List.mem_singleton] at hr
    subst hr
    by_cases hzero : Q = 0 ∧ R = 0
    · rw [if_pos hzero]
      obtain ⟨hQ0, hR0⟩ := hzero
      rw [hQ0, hR0, if_pos (le_refl (0 : ℝ))]
      ring
    · rw [if_neg hzero]
      set s := Real.sqrt (R * R - Q * Q * Q) with hsdef
      have hbase : 0 < s + |R| := by
        rcases eq_or_ne R 0 with hR | hR
        · have hQne : Q ≠ 0 := fun h => hzero ⟨h, hR⟩
          have hne : R * R - Q * Q * Q ≠ 0 := by
            rw [hR]
            intro hcontra
            have h3 : Q * Q * Q = 0 := by linarith
            rcases mul_eq_zero.mp h3 with h2 | h2
            · exact hQne (mul_self_eq_zero.mp h2)
            · exact hQne h2
          have hpos : 0 < R * R - Q * Q * Q := lt_of_le_of_ne hge (Ne.symm hne)
          exact add_pos_of_pos_of_nonneg (Real.sqrt_pos.mpr hpos) (abs_nonneg R)
        · exact add_pos_of_nonneg_of_pos (Real.sqrt_nonneg _) (abs_pos.mpr hR)
      set x0 := (s + |R|) ^ ((1 : ℝ) / 3) with hx0def
      have hx0pos : 0 < x0 := Real.rpow_pos_of_pos hbase _
      have hcube : x0 * x0 * x0 = s + |R| := by
        have h3 : x0 ^ (3 : ℕ) = s + |R| := by
          rw [hx0def, ← Real.rpow_natCast ((s + |R|) ^ ((1 : ℝ) / 3)) 3,
            ← Real.rpow_mul hbase.le]
          norm_num
        rw [← h3]
        ring
      rcases le_or_lt 0 R with hRsign | hRsign
      · rw [if_pos hRsign]
        have hcube2 : x0 * x0 * x0 = s + R := by rw [hcube, abs_of_nonneg hRsign]
        have hsR : s + R ≠ 0 := by
          rw [← abs_of_nonneg hRsign]
          exact ne_of_gt hbase
        linear_combination depressed_cardano_pos Q R s x0 (ne_of_gt hx0pos) hs2 hcube2 hsR
      · rw [if_neg (not_le.mpr hRsign)]
        have hcube2 : x0 * x0 * x0 = s - R := by
          rw [hcube, abs_of_neg hRsign]
          ring
        have hsR : s - R ≠ 0 := by
          have := hbase
          rw [abs_of_neg hRsign] at this
          intro hcontra
          rw [sub_eq_add_neg] at hcontra
          exact (ne_of_gt this) hcontra
        linear_combination depressed_cardano_neg Q R s x0 (ne_of_gt hx0pos) hs2 hcube2 hsR

/-- Every value returned by `solveCubic` is a root of the cubic, provided the
leading coefficient passes the 1e-6 guard. -/
theorem solveCubic_isRoot {a b c d r : ℝ} (ha : 1e-6 ≤ |a|)
    (hr : r ∈ solveCubic a b c d) :
    a * (r * r * r) + b * (r * r) + c * r + d = 0 := by
  rw [solveCubic, if_neg (not_lt.mpr ha)] at hr
  have ha0 : a ≠ 0 := by
    intro h
    rw [h] at ha
    norm_num at ha
  have h := solveCubicNorm_isRoot (b / a) (c / a) (d / a) r hr
  field_simp at h
  linear_combination h

/-- C4: for |a| ≥ 1e-6, with a1 = b/a, a2 = c/a, a3 = d/a,
Q = (a1² - 3 a2)/9, R = (2 a1³ - 9 a1 a2 + 27 a3)/54: if R² - Q³ < 0,
`solveCubic` returns the three trigonometric roots -2√Q·cos((θ+2kπ)/3) - a1/3
with θ = acos(R/√(Q³)); otherwise it returns the single Cardano root, which is
-a1/3 when Q = 0 and R = 0.  In particular `solveCubic(1,-6,11,-6)` returns
{1, 2, 3} (here exactly [1, 3, 2]). -/
theorem solveCubic_spec :
    (∀ a b c d a1 a2 a3 Q R : ℝ, 1e-6 ≤ |a| →
      a1 = b / a → a2 = c / a → a3 = d / a →
      Q = (a1 * a1 - 3 * a2) / 9 →
      R = (2 * a1 * a1 * a1 - 9 * a1 * a2 + 27 * a3) / 54 →
      (R * R - Q * Q * Q < 0 →
        solveCubic a b c d =
          [-2 * Real.sqrt Q *
              Real.cos (Real.arccos (R / Real.sqrt (Q * Q * Q)) / 3) - a1 / 3,
           -2 * Real.sqrt Q *
              Real.cos ((Real.arccos (R / Real.sqrt (Q * Q * Q)) + 2 * Real.pi) / 3)
              - a1 / 3,
           -2 * Real.sqrt Q *
              Real.cos ((Real.arccos (R / Real.sqrt (Q * Q * Q)) + 4 * Real.pi) / 3)
              - a1 / 3]) ∧
      (0 ≤ R * R - Q * Q * Q →
        (Q = 0 ∧ R = 0 → solveCubic a b c d = [-a1 / 3]) ∧
        (¬(Q = 0 ∧ R = 0) →
          solveCubic a b c d =
            [(if 0 ≤ R
              then -((Real.sqrt (R * R - Q * Q * Q) + |R|) ^ ((1 : ℝ) / 3)
                  + Q / (Real.sqrt (R * R - Q * Q * Q) + |R|) ^ ((1 : ℝ) / 3))
              else (Real.sqrt (R * R - Q * Q * Q) + |R|) ^ ((1 : ℝ) / 3)
                  + Q / (Real.sqrt (R * R - Q * Q * Q) + |R|) ^ ((1 : ℝ) / 3))
              - a1 / 3]))) ∧
    solveCubic 1 (-6) 11 (-6) = [1, 3, 2] := by
  constructor
  · intro a b c d a1 a2 a3 Q R ha h1 h2 h3 hQ hR
    subst h1; subst h2; subst h3; subst hQ; subst hR
    rw [solveCubic, if_neg (not_lt.mpr ha)]
    simp only [solveCubicNorm, cubicQ, cubicR]
    constructor
    · intro hlt
      rw [if_pos hlt]
    · intro hge
      rw [if_neg (not_lt.mpr hge)]
      constructor
      · intro hz
        rw [if_pos hz, if_pos (le_of_eq hz.2.symm)]
        norm_num
        ring
      · intro hnz
        rw [if_neg hnz]
  · have habs : ¬(|(1 : ℝ)| < 1e-6) := by norm_num
    rw [solveCubic, if_neg habs,
      show ((-6 : ℝ) / 1) = -6 by norm_num, show ((11 : ℝ) / 1) = 11 by norm_num]
    have hQ : cubicQ (-6) 11 = 1 / 3 := by norm_num [cubicQ]
    have hR : cubicR (-6) 11 (-6) = 0 := by norm_num [cubicR]
    simp only [solveCubicNorm, hQ, hR]
    rw [if_pos (by norm_num : (0 : ℝ) * 0 - 1 / 3 * (1 / 3) * (1 / 3) < 0)]
    rw [zero_div, Real.arccos_zero]
    rw [show Real.pi / 2 / 3 = Real.pi / 6 by ring]
    rw [show (Real.pi / 2 + 2 * Real.pi) / 3 = Real.pi - Real.pi / 6 by ring]
    rw [show (Real.pi / 2 + 4 * Real.pi) / 3 = Real.pi + Real.pi / 2 by ring]
    rw [Real.cos_pi_sub, Real.cos_pi_div_six]
    rw [show Real.cos (Real.pi + Real.pi / 2) = 0 by rw [Real.cos_add]; simp]
    have h13 : Real.sqrt (1 / 3) * Real.sqrt 3 = 1 := by
      rw [← Real.sqrt_mul (by norm_num : (0 : ℝ) ≤ 1 / 3)]
      norm_num
    simp only [List.cons.injEq, and_true]
    refine ⟨by linear_combination -h13, by linear_combination h13, by norm_num⟩

theorem splitLine_no_root (p1 p2 : Pt) (w : ℝ) (isH : Bool)
    (h : ∀ t, 0 ≤ t → t < 1 → coord (psub p2 p1) isH * t + coord p1 isH ≠ w) :
    splitLine p1 p2 w isH = [(p1, p2)] := by
  simp only [splitLine]
  by_cases hax : coord (psub p2 p1) isH = 0
  · rw [if_pos hax]
  · rw [if_neg hax, if_neg]
    rintro ⟨ht0, ht1⟩
    exact h _ ht0 ht1 (by field_simp)

theorem splitQuadratic_no_root (p1 p2 p3 : Pt) (w : ℝ) (isH : Bool)
    (h : ∀ t, 0 ≤ t → t < 1 → coord (quadPointAt p1 p2 p3 t) isH ≠ w) :
    splitQuadratic p1 p2 p3 w isH = [(p1, p2, p3)] := by
  have hf : filterRoots (solveQuadratic
      (coord (calcQuadraticParameters p1 p2 p3).1 isH)
      (coord (calcQuadraticParameters p1 p2 p3).2.1 isH)
      (coord (calcQuadraticParameters p1 p2 p3).2.2 isH - w)) = [] := by
    apply filterRoots_eq_nil
    rintro r hrmem ⟨hr0, hr1⟩
    have hroot := solveQuadratic_isRoot hrmem
    apply h r hr0 hr1
    rw [quadPointAt, coord_quadPoly]
    linarith [hroot]
  simp [splitQuadratic, hf]

theorem splitCubic_no_root (p1 p2 p3 p4 : Pt) (w : ℝ) (isH : Bool)
    (hcond : coord (calcCubicParameters p1 p2 p3 p4).1 isH = 0 ∨
      1e-6 ≤ |coord (calcCubicParameters p1 p2 p3 p4).1 isH|)
    (h : ∀ t, 0 ≤ t → t < 1 → coord (cubicPointAt p1 p2 p3 p4 t) isH ≠ w) :
    splitCubic p1 p2 p3 p4 w isH = [(p1, p2, p3, p4)] := by
  have hf : filterRoots (solveCubic
      (coord (calcCubicParameters p1 p2 p3 p4).1 isH)
      (coord (calcCubicParameters p1 p2 p3 p4).2.1 isH)
      (coord (calcCubicParameters p1 p2 p3 p4).2.2.1 isH)
      (coord (calcCubicParameters p1 p2 p3 p4).2.2.2 isH - w)) = [] := by
    apply filterRoots_eq_nil
    rintro r hrmem ⟨hr0, hr1⟩
    apply h r hr0 hr1
    rcases hcond with hA | hA
    · rw [solveCubic, if_pos (by rw [hA]; norm_num)] at hrmem
      have hroot := solveQuadratic_isRoot hrmem
      rw [cubicPointAt, coord_cubicPoly, hA]
      linarith [hroot]
    · have hroot := solveCubic_isRoot hA hrmem
      rw [cubicPointAt, coord_cubicPoly]
      linarith [hroot]
  simp [splitCubic, hf]

/-- C6 (amended): splitting a line or quadratic segment at a `where` value that
the segment's axis polynomial never attains on [0,1) returns the original
segment unsplit; for a cubic segment the same holds provided the axis leading
coefficient is 0 or at least 1e-6 in magnitude (so that the delegated solver
actually solves the axis polynomial). -/
theorem split_outside_range_unsplit :
    (∀ (p1 p2 : Pt) (w : ℝ) (isH : Bool),
      (∀ t, 0 ≤ t → t < 1 → coord (psub p2 p1) isH * t + coord p1 isH ≠ w) →
      splitLine p1 p2 w isH = [(p1, p2)]) ∧
    (∀ (p1 p2 p3 : Pt) (w : ℝ) (isH : Bool),
      (∀ t, 0 ≤ t → t < 1 → coord (quadPointAt p1 p2 p3 t) isH ≠ w) →
      splitQuadratic p1 p2 p3 w isH = [(p1, p2, p3)]) ∧
    (∀ (p1 p2 p3 p4 : Pt) (w : ℝ) (isH : Bool),
      (coord (calcCubicParameters p1 p2 p3 p4).1 isH = 0 ∨
        1e-6 ≤ |coord (calcCubicParameters p1 p2 p3 p4).1 isH|) →
      (∀ t, 0 ≤ t → t < 1 → coord (cubicPointAt p1 p2 p3 p4 t) isH ≠ w) →
      splitCubic p1 p2 p3 p4 w isH = [(p1, p2, p3, p4)]) :=
  ⟨splitLine_no_root, splitQuadratic_no_root, splitCubic_no_root⟩

/-- Witness for C6 (amended), line case: the horizontal level 200 is never
attained by the segment (0,0)-(100,100), which is returned unsplit. -/
theorem split_outside_range_unsplit_witness :
    (∀ t : ℝ, 0 ≤ t → t < 1 →
      coord (psub ((100 : ℝ), (100 : ℝ)) ((0 : ℝ), (0 : ℝ))) true * t
        + coord ((0 : ℝ), (0 : ℝ)) true ≠ (200 : ℝ)) ∧
    splitLine (0, 0) (100, 100) 200 true = [((0, 0), (100, 100))] := by
  have hyp : ∀ t : ℝ, 0 ≤ t → t < 1 →
      coord (psub ((100 : ℝ), (100 : ℝ)) ((0 : ℝ), (0 : ℝ))) true * t
        + coord ((0 : ℝ), (0 : ℝ)) true ≠ (200 : ℝ) := by
    intro t ht0 ht1
    simp only [coord, psub]
    norm_num
    intro heq
    linarith
  exact ⟨hyp, split_outside_range_unsplit.1 (0, 0) (100, 100) 200 true hyp⟩

/-- Counterexample to C6 as stated: the cubic with control points
(0,0), (1/3,0), (2/3,0), (1-1e-7,0) has x-polynomial t - 1e-7·t³, which never
attains 1-1e-8 on [0,1); its axis leading coefficient -1e-7 is nonzero but
below the 1e-6 guard, so `solveCubic` delegates to the quadratic solver, finds
the spurious root 1-1e-8 and `splitCubic` splits the segment anyway. -/
theorem split_outside_range_unsplit_counterexample :
    (∀ t : ℝ, 0 ≤ t → t < 1 →
      coord (cubicPointAt (0, 0) (1 / 3, 0) (2 / 3, 0) (1 - 1e-7, 0) t) false
        ≠ (1 - 1e-8 : ℝ)) ∧
    splitCubic (0, 0) (1 / 3, 0) (2 / 3, 0) (1 - 1e-7, 0) (1 - 1e-8) false ≠
      [((0, 0), (1 / 3, 0), (2 / 3, 0), (1 - 1e-7, 0))] := by
  constructor
  · intro t ht0 ht1
    rw [cubicPointAt, coord_cubicPoly]
    norm_num [calcCubicParameters, psub, pscale, coord]
    intro heq
    have h2 : (0 : ℝ) < 1 - 1e-7 * (1 + t + t * t) := by nlinarith
    have h3 : (0 : ℝ) < (1 - t) * (1 - 1e-7 * (1 + t + t * t)) :=
      mul_pos (by linarith) h2
    nlinarith [h3]
  · have h1 : coord (calcCubicParameters ((0 : ℝ), (0 : ℝ)) (1 / 3, 0) (2 / 3, 0)
        (1 - 1e-7, 0)).1 false = -(1e-7) := by
      norm_num [calcCubicParameters, psub, pscale, coord]
    have h2 : coord (calcCubicParameters ((0 : ℝ), (0 : ℝ)) (1 / 3, 0) (2 / 3, 0)
        (1 - 1e-7, 0)).2.1 false = 0 := by
      norm_num [calcCubicParameters, psub, pscale, coord]
    have h3 : coord (calcCubicParameters ((0 : ℝ), (0 : ℝ)) (1 / 3, 0) (2 / 3, 0)
        (1 - 1e-7, 0)).2.2.1 false = 1 := by
      norm_num [calcCubicParameters, psub, pscale, coord]
    have h4 : coord (calcCubicParameters ((0 : ℝ), (0 : ℝ)) (1 / 3, 0) (2 / 3, 0)
        (1 - 1e-7, 0)).2.2.2 false = 0 := by
      norm_num [calcCubicParameters, psub, pscale, coord]
    have hsolve : solveCubic (-(1e-7)) 0 1 (0 - (1 - 1e-8)) = [1 - 1e-8] := by
      have habs : |(-(1e-7) : ℝ)| < 1e-6 := by
        rw [abs_neg, abs_of_nonneg (by norm_num : (0 : ℝ) ≤ 1e-7)]
        norm_num
      rw [solveCubic, if_pos habs, solveQuadratic, if_pos rfl, if_neg (by norm_num)]
      norm_num
    have hfil : filterRoots [(1 : ℝ) - 1e-8] = [1 - 1e-8] := by
      rw [filterRoots, if_pos (by norm_num), filterRoots]
    have hsort : List.insertionSort (fun x y : ℝ => x ≤ y) [(1 : ℝ) - 1e-8]
        = [1 - 1e-8] := by
      simp [List.insertionSort, List.orderedInsert]
    simp only [splitCubic, h1, h2, h3, h4, hsolve, hfil, hsort]
    rw [if_neg (List.cons_ne_nil _ _)]
    intro heq
    have hlen := congrArg List.length heq
    simp [pairs] at hlen

/-- The bounding rectangle of a point list bounds each of its members. -/
theorem calcBounds_mem : ∀ (pts : List Pt) (p : Pt), p ∈ pts →
    (calcBounds pts).1 ≤ p.1 ∧ (calcBounds pts).2.1 ≤ p.2 ∧
    p.1 ≤ (calcBounds pts).2.2.1 ∧ p.2 ≤ (calcBounds pts).2.2.2 := by
  intro pts
  induction pts with
  | nil => intro p hp; simp at hp
  | cons q rest ih =>
    intro p hp
    cases rest with
    | nil =>
      simp only [List.mem_singleton] at hp
      subst hp
      simp [calcBounds]
    | cons q2 r2 =>
      simp only [calcBounds]
      rcases List.mem_cons.mp hp with rfl | hp2
      · exact ⟨min_le_left _ _, min_le_left _ _, le_max_left _ _, le_max_left _ _⟩
      · obtain ⟨ha, hb, hc, hd⟩ := ih p hp2
        exact ⟨le_trans (min_le_right _ _) ha, le_trans (min_le_right _ _) hb,
          le_trans hc (le_max_right _ _), le_trans hd (le_max_right _ _)⟩

theorem calcQuadraticBounds_case1 :
    calcQuadraticBounds (0, 0) (50, 100) (100, 0) = (0, 0, 100, 50) := by
  norm_num [calcQuadraticBounds, calcQuadraticParameters, psub, pscale, padd,
    quadPoly, filterRoots, calcBounds, coord, min_def, max_def, Prod.ext_iff]

theorem calcQuadraticBounds_case2 :
    calcQuadraticBounds (0, 0) (100, 0) (100, 100) = (0, 0, 100, 100) := by
  norm_num [calcQuadraticBounds, calcQuadraticParameters, psub, pscale, padd,
    quadPoly, filterRoots, calcBounds, coord, min_def, max_def, Prod.ext_iff]

theorem calcCubicBounds_case1 :
    calcCubicBounds (0, 0) (25, 100) (75, 100) (100, 0) = (0, 0, 100, 75) := by
  have hsq3 : Real.sqrt 3 * Real.sqrt 3 = 3 := Real.mul_self_sqrt (by norm_num)
  have h3a : 1 < Real.sqrt 3 := by nlinarith [Real.sqrt_nonneg 3]
  have h675 : Real.sqrt 67500 = 150 * Real.sqrt 3 := by
    rw [show (67500 : ℝ) = 150 ^ 2 * 3 by norm_num,
      Real.sqrt_mul (by positivity) 3, Real.sqrt_sq (by norm_num : (0 : ℝ) ≤ 150)]
  have hx : filterRoots (solveQuadratic (-150) 150 75) = [] := by
    rw [solveQuadratic, if_neg (by norm_num), if_pos (by norm_num),
      show (150 : ℝ) * 150 - 4 * (-150) * 75 = 67500 by norm_num, h675]
    have hr1 : (-(150 : ℝ) + 150 * Real.sqrt 3) / 2 / (-150) < 0 :=
      div_neg_of_pos_of_neg (by nlinarith) (by norm_num)
    have hr2 : (1 : ℝ) ≤ (-(150 : ℝ) - 150 * Real.sqrt 3) / 2 / (-150) := by
      rw [show (-(150 : ℝ) - 150 * Real.sqrt 3) / 2 / (-150)
          = (1 + Real.sqrt 3) / 2 by field_simp; ring]
      nlinarith
    rw [filterRoots, if_neg (fun hc => absurd hc.1 (not_le.mpr hr1)),
      filterRoots, if_neg (fun hc => absurd hc.2 (not_lt.mpr hr2)), filterRoots]
  have hy : filterRoots (solveQuadratic 0 (-600) 300) = [1 / 2] := by
    rw [solveQuadratic, if_pos rfl, if_neg (by norm_num)]
    rw [show -(300 : ℝ) / -600 = 1 / 2 by norm_num]
    rw [filterRoots, if_pos (by norm_num), filterRoots]
  have hA : (calcCubicParameters ((0 : ℝ), (0 : ℝ)) (25, 100) (75, 100) (100, 0)).1
      = (-50, 0) := by
    norm_num [calcCubicParameters, psub, pscale]
  have hB : (calcCubicParameters ((0 : ℝ), (0 : ℝ)) (25, 100) (75, 100) (100, 0)).2.1
      = (75, -300) := by
    norm_num [calcCubicParameters, psub, pscale]
  have hC : (calcCubicParameters ((0 : ℝ), (0 : ℝ)) (25, 100) (75, 100) (100, 0)).2.2.1
      = (75, 300) := by
    norm_num [calcCubicParameters, psub, pscale]
  have hD : (calcCubicParameters ((0 : ℝ), (0 : ℝ)) (25, 100) (75, 100) (100, 0)).2.2.2
      = (0, 0) := by
    norm_num [calcCubicParameters, psub, pscale]
  simp only [calcCubicBounds, hA, hB, hC, hD]
  norm_num [hx, hy, cubicPoly, padd, pscale, calcBounds, min_def, max_def, Prod.ext_iff]

theorem calcCubicBounds_sym_case :
    calcCubicBounds (50, 0) (0, 100) (100, 100) (50, 0)
      = (50 - 25 * Real.sqrt 3 / 3, 0, 50 + 25 * Real.sqrt 3 / 3, 75) := by
  have hsq3 : Real.sqrt 3 * Real.sqrt 3 = 3 := Real.mul_self_sqrt (by norm_num)
  have h3a : 1 < Real.sqrt 3 := by nlinarith [Real.sqrt_nonneg 3]
  have h3b : Real.sqrt 3 < 2 := by nlinarith [Real.sqrt_nonneg 3]
  have h270 : Real.sqrt 270000 = 300 * Real.sqrt 3 := by
    rw [show (270000 : ℝ) = 300 ^ 2 * 3 by norm_num,
      Real.sqrt_mul (by positivity) 3, Real.sqrt_sq (by norm_num : (0 : ℝ) ≤ 300)]
  have hx : filterRoots (solveQuadratic (-900) 900 (-150))
      = [(3 - Real.sqrt 3) / 6, (3 + Real.sqrt 3) / 6] := by
    rw [solveQuadratic, if_neg (by norm_num), if_pos (by norm_num),
      show (900 : ℝ) * 900 - 4 * (-900) * (-150) = 270000 by norm_num, h270,
      show (-(900 : ℝ) + 300 * Real.sqrt 3) / 2 / (-900) = (3 - Real.sqrt 3) / 6 by
        field_simp; ring,
      show (-(900 : ℝ) - 300 * Real.sqrt 3) / 2 / (-900) = (3 + Real.sqrt 3) / 6 by
        field_simp; ring]
    rw [filterRoots, if_pos (by constructor <;> nlinarith),
      filterRoots, if_pos (by constructor <;> nlinarith), filterRoots]
  have hy : filterRoots (solveQuadratic 0 (-600) 300) = [1 / 2] := by
    rw [solveQuadratic, if_pos rfl, if_neg (by norm_num)]
    rw [show -(300 : ℝ) / -600 = 1 / 2 by norm_num]
    rw [filterRoots, if_pos (by norm_num), filterRoots]
  have hA : (calcCubicParameters ((50 : ℝ), (0 : ℝ)) (0, 100) (100, 100) (50, 0)).1
      = (-300, 0) := by
    norm_num [calcCubicParameters, psub, pscale]
  have hB : (calcCubicParameters ((50 : ℝ), (0 : ℝ)) (0, 100) (100, 100) (50, 0)).2.1
      = (450, -300) := by
    norm_num [calcCubicParameters, psub, pscale]
  have hC : (calcCubicParameters ((50 : ℝ), (0 : ℝ)) (0, 100) (100, 100) (50, 0)).2.2.1
      = (-150, 300) := by
    norm_num [calcCubicParameters, psub, pscale]
  have hD : (calcCubicParameters ((50 : ℝ), (0 : ℝ)) (0, 100) (100, 100) (50, 0)).2.2.2
      = (50, 0) := by
    norm_num [calcCubicParameters, psub, pscale]
  have hv1 : cubicPoly (-300, 0) (450, -300) (-150, 300) (50, 0) ((3 - Real.sqrt 3) / 6)
      = (50 - 25 * Real.sqrt 3 / 3, 50) := by
    rw [Prod.ext_iff]
    constructor <;> simp only [cubicPoly, padd, pscale]
    · linear_combination (25 / 18 * Real.sqrt 3) * hsq3
    · linear_combination (-25 / 3 : ℝ) * hsq3
  have hv2 : cubicPoly (-300, 0) (450, -300) (-150, 300) (50, 0) ((3 + Real.sqrt 3) / 6)
      = (50 + 25 * Real.sqrt 3 / 3, 50) := by
    rw [Prod.ext_iff]
    constructor <;> simp only [cubicPoly, padd, pscale]
    · linear_combination (-25 / 18 * Real.sqrt 3) * hsq3
    · linear_combination (-25 / 3 : ℝ) * hsq3
  have hv3 : cubicPoly (-300, 0) (450, -300) (-150, 300) (50, 0) ((1 : ℝ) / 2)
      = (50, 75) := by
    norm_num [cubicPoly, padd, pscale, Prod.ext_iff]
  simp only [calcCubicBounds, hA, hB, hC, hD]
  norm_num [hx, hy, hv1, hv2, hv3]
  simp only [calcBounds]
  have hm1 : min (50 + 25 * Real.sqrt 3 / 3) (50 : ℝ) = 50 :=
    min_eq_right (by nlinarith)
  have hm2 : min (50 - 25 * Real.sqrt 3 / 3) (50 : ℝ) = 50 - 25 * Real.sqrt 3 / 3 :=
    min_eq_left (by nlinarith)
  have hM1 : max (50 + 25 * Real.sqrt 3 / 3) (50 : ℝ) = 50 + 25 * Real.sqrt 3 / 3 :=
    max_eq_left (by nlinarith)
  have hM2 : max (50 - 25 * Real.sqrt 3 / 3) (50 + 25 * Real.sqrt 3 / 3)
      = 50 + 25 * Real.sqrt 3 / 3 :=
    max_eq_right (by nlinarith)
  rw [Prod.ext_iff, Prod.ext_iff, Prod.ext_iff]
  refine ⟨?_, ?_, ?_, ?_⟩ <;> dsimp only
  · rw [min_self, min_self, hm1, hm2]
  · norm_num [min_def]
  · rw [max_self, max_self, hM1, hM2]
  · norm_num [max_def]

/-- C7 (amended): `calcQuadraticBounds` returns a rectangle containing both
anchor points; the quoted closed-form cases hold exactly; and
`calcCubicBounds((50,0),(0,100),(100,100),(50,0))` equals
(50 - 25√3/3, 0, 50 + 25√3/3, 75) exactly, which matches the quoted 4-decimal
figures (35.5662, 64.4338) to tolerance 5e-5 (not 1e-9). -/
theorem calcBounds_spec :
    (∀ p1 p2 p3 : Pt,
      ((calcQuadraticBounds p1 p2 p3).1 ≤ p1.1 ∧
       (calcQuadraticBounds p1 p2 p3).2.1 ≤ p1.2 ∧
       p1.1 ≤ (calcQuadraticBounds p1 p2 p3).2.2.1 ∧
       p1.2 ≤ (calcQuadraticBounds p1 p2 p3).2.2.2) ∧
      ((calcQuadraticBounds p1 p2 p3).1 ≤ p3.1 ∧
       (calcQuadraticBounds p1 p2 p3).2.1 ≤ p3.2 ∧
       p3.1 ≤ (calcQuadraticBounds p1 p2 p3).2.2.1 ∧
       p3.2 ≤ (calcQuadraticBounds p1 p2 p3).2.2.2)) ∧
    calcQuadraticBounds (0, 0) (50, 100) (100, 0) = (0, 0, 100, 50) ∧
    calcQuadraticBounds (0, 0) (100, 0) (100, 100) = (0, 0, 100, 100) ∧
    calcCubicBounds (0, 0) (25, 100) (75, 100) (100, 0) = (0, 0, 100, 75) ∧
    calcCubicBounds (50, 0) (0, 100) (100, 100) (50, 0)
      = (50 - 25 * Real.sqrt 3 / 3, 0, 50 + 25 * Real.sqrt 3 / 3, 75) ∧
    |50 - 25 * Real.sqrt 3 / 3 - 35.5662| < 5e-5 ∧
    |50 + 25 * Real.sqrt 3 / 3 - 64.4338| < 5e-5 := by
  have hsq3 : Real.sqrt 3 * Real.sqrt 3 = 3 := Real.mul_self_sqrt (by norm_num)
  have hlo : (1.73205 : ℝ) < Real.sqrt 3 := by nlinarith [Real.sqrt_nonneg 3]
  have hhi : Real.sqrt 3 < 1.7320509 := by nlinarith [Real.sqrt_nonneg 3]
  refine ⟨?_, calcQuadraticBounds_case1, calcQuadraticBounds_case2,
    calcCubicBounds_case1, calcCubicBounds_sym_case, ?_, ?_⟩
  · intro p1 p2 p3
    simp only [calcQuadraticBounds]
    exact ⟨calcBounds_mem _ p1 (List.mem_append_right _ (by simp)),
      calcBounds_mem _ p3 (List.mem_append_right _ (by simp))⟩
  · rw [abs_lt]
    constructor <;> nlinarith
  · rw [abs_lt]
    constructor <;> nlinarith

/-- Counterexample to C7 as stated: the first component of
`calcCubicBounds((50,0),(0,100),(100,100),(50,0))` is 50 - 25√3/3
≈ 35.56624327, which differs from the quoted 35.5662 by about 4.3e-5,
exceeding the claimed 1e-9 tolerance. -/
theorem calcBounds_spec_counterexample :
    1e-9 < |(calcCubicBounds (50, 0) (0, 100) (100, 100) (50, 0)).1 - 35.5662| := by
  rw [calcCubicBounds_sym_case]
  have hsq3 : Real.sqrt 3 * Real.sqrt 3 = 3 := Real.mul_self_sqrt (by norm_num)
  have hhi : Real.sqrt 3 < 1.7320509 := by nlinarith [Real.sqrt_nonneg 3]
  dsimp only
  rw [abs_of_pos (by nlinarith)]
  nlinarith

/-- Witness for C10 at the quadratic doctest split, which yields two
segments. -/
theorem split_segments_join_witness :
    1 < (splitQuadratic (0, 0) (50, 100) (100, 0) 50 false).length ∧
    ((∀ (i : ℕ) (s1 s2 : Pt × Pt × Pt),
        (splitQuadratic (0, 0) (50, 100) (100, 0) 50 false)[i]? = some s1 →
        (splitQuadratic (0, 0) (50, 100) (100, 0) 50 false)[i + 1]? = some s2 →
        s1.2.2 = s2.1) ∧
      (∀ s1, (splitQuadratic (0, 0) (50, 100) (100, 0) 50 false).head? = some s1 →
        s1.1 = quadPointAt (0, 0) (50, 100) (100, 0) 0) ∧
      (∀ s2, (splitQuadratic (0, 0) (50, 100) (100, 0) 50 false).getLast? = some s2 →
        s2.2.2 = quadPointAt (0, 0) (50, 100) (100, 0) 1)) := by
  have h1 : coord (calcQuadraticParameters ((0 : ℝ), (0 : ℝ)) (50, 100) (100, 0)).1
      false = 0 := by
    norm_num [calcQuadraticParameters, psub, pscale, coord]
  have h2 : coord (calcQuadraticParameters ((0 : ℝ), (0 : ℝ)) (50, 100) (100, 0)).2.1
      false = 100 := by
    norm_num [calcQuadraticParameters, psub, pscale, coord]
  have h3 : coord (calcQuadraticParameters ((0 : ℝ), (0 : ℝ)) (50, 100) (100, 0)).2.2
      false = 0 := by
    norm_num [calcQuadraticParameters, psub, pscale, coord]
  have hq : solveQuadratic 0 100 (0 - 50) = [1 / 2] := by
    rw [solveQuadratic, if_pos rfl, if_neg (by norm_num)]
    norm_num
  have hfil : filterRoots [(1 : ℝ) / 2] = [1 / 2] := by
    rw [filterRoots, if_pos (by norm_num), filterRoots]
  have hsort : List.insertionSort (fun x y : ℝ => x ≤ y) [(1 : ℝ) / 2] = [1 / 2] := by
    simp [List.insertionSort, List.orderedInsert]
  have hlen : 1 < (splitQuadratic ((0 : ℝ), (0 : ℝ)) (50, 100) (100, 0) 50 false).length := by
    simp only [splitQuadratic, h1, h2, h3, hq, hfil, hsort]
    rw [if_neg (List.cons_ne_nil _ _)]
    simp [pairs]
  exact ⟨hlen, split_segments_join.1 (0, 0) (50, 100) (100, 0) 50 false hlen⟩

/-- Witness for C4 at (a,b,c,d) = (1,-6,11,-6), whose normalized parameters
are a1 = -6, a2 = 11, a3 = -6, Q = 1/3, R = 0. -/
theorem solveCubic_spec_witness :
    (1e-6 : ℝ) ≤ |(1 : ℝ)| ∧
    (((0 : ℝ) * 0 - 1 / 3 * (1 / 3) * (1 / 3) < 0 →
      solveCubic 1 (-6) 11 (-6) =
        [-2 * Real.sqrt (1 / 3) *
            Real.cos (Real.arccos (0 / Real.sqrt (1 / 3 * (1 / 3) * (1 / 3))) / 3)
            - (-6) / 3,
         -2 * Real.sqrt (1 / 3) *
            Real.cos ((Real.arccos (0 / Real.sqrt (1 / 3 * (1 / 3) * (1 / 3)))
              + 2 * Real.pi) / 3) - (-6) / 3,
         -2 * Real.sqrt (1 / 3) *
            Real.cos ((Real.arccos (0 / Real.sqrt (1 / 3 * (1 / 3) * (1 / 3)))
              + 4 * Real.pi) / 3) - (-6) / 3]) ∧
    (0 ≤ (0 : ℝ) * 0 - 1 / 3 * (1 / 3) * (1 / 3) →
      ((1 : ℝ) / 3 = 0 ∧ (0 : ℝ) = 0 → solveCubic 1 (-6) 11 (-6) = [-(-6) / 3]) ∧
      (¬((1 : ℝ) / 3 = 0 ∧ (0 : ℝ) = 0) →
        solveCubic 1 (-6) 11 (-6) =
          [(if 0 ≤ (0 : ℝ)
            then -((Real.sqrt ((0 : ℝ) * 0 - 1 / 3 * (1 / 3) * (1 / 3)) + |(0 : ℝ)|)
                  ^ ((1 : ℝ) / 3)
                + 1 / 3 / (Real.sqrt ((0 : ℝ) * 0 - 1 / 3 * (1 / 3) * (1 / 3))
                  + |(0 : ℝ)|) ^ ((1 : ℝ) / 3))
            else (Real.sqrt ((0 : ℝ) * 0 - 1 / 3 * (1 / 3) * (1 / 3)) + |(0 : ℝ)|)
                  ^ ((1 : ℝ) / 3)
                + 1 / 3 / (Real.sqrt ((0 : ℝ) * 0 - 1 / 3 * (1 / 3) * (1 / 3))
                  + |(0 : ℝ)|) ^ ((1 : ℝ) / 3))
            - (-6) / 3]))) :=
  ⟨by norm_num,
    solveCubic_spec.1 1 (-6) 11 (-6) (-6) 11 (-6) (1 / 3) 0 (by norm_num)
      (by norm_num) (by norm_num) (by norm_num) (by norm_num) (by norm_num)⟩

end
